import Mathlib

/-!
Verification of the Notes service (Express CRUD over a flat directory).

The service stores each note as one file named name ++ ".txt" inside a
single storage directory. We model the directory as an association list
from file name to file content, and each HTTP handler of src/main.js as a
pure function from that state (plus the parsed request) to a new state and
a Response (status code and body). Names are used verbatim as storage keys,
matching the source, which performs no normalization.
-/

/-- A flat directory: an association list from file name to file content.
Keys are expected to be distinct, which every operation below preserves. -/
abbrev FS := List (String × String)

/-- Model of fs.existsSync on a file path inside the storage directory. -/
def existsSync (fs : FS) (p : String) : Bool :=
  fs.any (fun e => e.1 == p)

/-- Model of fs.readFileSync: content of the first entry with the given
name, none when the file is absent. -/
def readFileSync (fs : FS) (p : String) : Option String :=
  match fs with
  | [] => none
  | e :: rest => if e.1 == p then some e.2 else readFileSync rest p

/-- Model of fs.writeFileSync: replaces the content in place when the file
exists, otherwise creates a new directory entry. -/
def writeFileSync (fs : FS) (p c : String) : FS :=
  match fs with
  | [] => [(p, c)]
  | e :: rest => if e.1 == p then (p, c) :: rest else e :: writeFileSync rest p c

/-- Model of fs.unlinkSync: removes the entry with the given name. -/
def unlinkSync (fs : FS) (p : String) : FS :=
  fs.filter (fun e => !(e.1 == p))

/-- Model of fs.readdirSync: the file names of the directory entries. -/
def readdirSync (fs : FS) : List String :=
  fs.map Prod.fst

/-- Model of the JavaScript expression s.endsWith(pat). -/
def jsEndsWith (s pat : String) : Bool :=
  List.isSuffixOf pat.data s.data

/-- Model of JavaScript String.prototype.replace with a plain string
pattern, on character lists: it replaces only the FIRST occurrence of the
pattern, scanning left to right, and returns the input unchanged when the
pattern does not occur. -/
def replaceFirstChars (pat repl : List Char) : List Char → List Char
  | [] => if pat.isEmpty then repl else []
  | c :: cs =>
    if pat <+: (c :: cs) then repl ++ (c :: cs).drop pat.length
    else c :: replaceFirstChars pat repl cs

/-- Model of the JavaScript expression s.replace(pat, repl) where pat is a
plain string: only the first occurrence is replaced. -/
def jsReplaceFirst (s pat repl : String) : String :=
  ⟨replaceFirstChars pat.data repl.data s.data⟩

/-- The storage file name of a note: the note name with ".txt" appended,
as in path.join(CACHE_DIR, noteName + ".txt") of src/main.js. -/
def noteFile (n : String) : String :=
  n ++ ".txt"

/-- Character list of the note-file suffix ".txt". -/
def txtP : List Char := ['.', 't', 'x', 't']

/-- An HTTP response: status code and body, as sent by src/main.js. -/
structure Response where
  status : Nat
  body : String
deriving DecidableEq, Repr

/-- One entry of the GET /notes listing of src/main.js. -/
structure NoteEntry where
  name : String
  text : String
deriving DecidableEq, Repr

/-- Handler of GET /notes/:noteName (src/main.js lines 64-73): 404 when
the file is absent, otherwise 200 with the full stored content. -/
def getNote (fs : FS) (noteName : String) : Response :=
  let notePath := noteFile noteName
  if !(existsSync fs notePath) then ⟨404, "Note not found"⟩
  else ⟨200, (readFileSync fs notePath).getD ""⟩

/-- Handler of PUT /notes/:noteName (src/main.js lines 98-116). The parsed
request body is some s when express.text gave a string, none otherwise.
The handler checks existence first, then the body type, then writes. -/
def putNote (fs : FS) (noteName : String) (body : Option String) : FS × Response :=
  let notePath := noteFile noteName
  if !(existsSync fs notePath) then (fs, ⟨404, "Note not found"⟩)
  else
    match body with
    | none => (fs, ⟨400, "Invalid request body"⟩)
    | some b => (writeFileSync fs notePath b, ⟨200, "Note updated"⟩)

/-- Handler of DELETE /notes/:noteName (src/main.js lines 135-143). -/
def deleteNote (fs : FS) (noteName : String) : FS × Response :=
  let notePath := noteFile noteName
  if !(existsSync fs notePath) then (fs, ⟨404, "Note not found"⟩)
  else (unlinkSync fs notePath, ⟨200, "Note deleted"⟩)

/-- Handler of GET /notes (src/main.js lines 165-174): scans the storage
directory, keeps the names ending in ".txt", and maps each file to an
entry whose name is file.replace of ".txt" by the empty string (first
occurrence only) and whose text is the file content. -/
def listNotes (fs : FS) : List NoteEntry :=
  ((readdirSync fs).filter (fun f => jsEndsWith f ".txt")).map
    (fun file =>
      ⟨jsReplaceFirst file ".txt" "", (readFileSync fs file).getD ""⟩)

/-- JavaScript truthiness test on a form field that may be absent: an
absent field and the empty string are both falsy. -/
def falsy : Option String → Bool
  | none => true
  | some s => s == ""

/-- Handler of POST /write (src/main.js lines 198-219): 400 when either
form field is missing or empty, 400 when the note already exists,
otherwise the note is created with status 201. -/
def postWrite (fs : FS) (note_name nt : Option String) : FS × Response :=
  if falsy note_name || falsy nt then (fs, ⟨400, "Missing note_name or note"⟩)
  else
    let filePath := noteFile (note_name.getD "")
    if existsSync fs filePath then (fs, ⟨400, "Note already exists"⟩)
    else (writeFileSync fs filePath (nt.getD ""), ⟨201, "Note created"⟩)

/-! ### Association list lemmas about the filesystem primitives -/

theorem readFileSync_writeFileSync_self (fs : FS) (p c : String) :
    readFileSync (writeFileSync fs p c) p = some c := by
  induction fs with
  | nil => simp [writeFileSync, readFileSync]
  | cons e rest ih =>
    by_cases he : (e.1 == p) = true
    · simp [writeFileSync, he, readFileSync]
    · simp [writeFileSync, he, readFileSync, ih]

theorem readFileSync_writeFileSync_ne (fs : FS) {p q : String} (c : String)
    (h : q ≠ p) :
    readFileSync (writeFileSync fs p c) q = readFileSync fs q := by
  have hpq : (p == q) = false := by
    simp [beq_iff_eq]
    exact fun he => absurd he.symm h
  induction fs with
  | nil => simp [writeFileSync, readFileSync, hpq]
  | cons e rest ih =>
    by_cases he : (e.1 == p) = true
    · have he1 : e.1 = p := by simpa [beq_iff_eq] using he
      simp [writeFileSync, he, readFileSync, he1, hpq]
    · simp [writeFileSync, he, readFileSync, ih]

theorem existsSync_eq_isSome (fs : FS) (p : String) :
    existsSync fs p = (readFileSync fs p).isSome := by
  induction fs with
  | nil => rfl
  | cons e rest ih =>
    by_cases he : (e.1 == p) = true
    · simp [existsSync, readFileSync, he]
    · simp only [existsSync, readFileSync, List.any_cons, he] at ih ⊢
      simp [he, ih]

theorem readFileSync_unlinkSync_self (fs : FS) (p : String) :
    readFileSync (unlinkSync fs p) p = none := by
  induction fs with
  | nil => rfl
  | cons e rest ih =>
    by_cases he : (e.1 == p) = true
    · simpa [unlinkSync, List.filter, he] using ih
    · simpa [unlinkSync, List.filter, he, readFileSync] using ih

theorem readFileSync_unlinkSync_ne (fs : FS) {p q : String} (h : q ≠ p) :
    readFileSync (unlinkSync fs p) q = readFileSync fs q := by
  induction fs with
  | nil => rfl
  | cons e rest ih =>
    by_cases he : (e.1 == p) = true
    · have he1 : e.1 = p := by simpa [beq_iff_eq] using he
      have heq : (e.1 == q) = false := by
        simp [beq_iff_eq, he1]
        exact fun he2 => absurd he2.symm h
      simp [unlinkSync, List.filter, he, readFileSync, heq] at ih ⊢
      exact ih
    · simp only [unlinkSync, List.filter, he, Bool.not_false, readFileSync] at ih ⊢
      rw [ih]

theorem mem_readdirSync_of_readFileSync {fs : FS} {p t : String}
    (h : readFileSync fs p = some t) : p ∈ readdirSync fs := by
  induction fs with
  | nil => simp [readFileSync] at h
  | cons e rest ih =>
    by_cases he : (e.1 == p) = true
    · have he1 : e.1 = p := by simpa [beq_iff_eq] using he
      simp [readdirSync, he1]
    · simp only [readFileSync, he, if_false] at h
      simp [readdirSync] at ih ⊢
      exact Or.inr (ih h)

theorem noteFile_injEq {m n : String} (h : noteFile m = noteFile n) : m = n := by
  have hd := congrArg String.data h
  simp only [noteFile] at hd
  rw [String.data_append, String.data_append] at hd
  exact String.ext (List.append_inj' hd rfl).1

/-! ### The note-file suffix as a character list -/

theorem txt_data : ".txt".data = txtP := rfl

/-- The suffix ".txt" has no period shorter than its length, so appending
the proper prefix ".tx" to a list free of ".txt" cannot create an
occurrence of ".txt". -/
theorem not_txt_infix_append {s : List Char} (h : ¬ txtP <:+: s) :
    ¬ txtP <:+: (s ++ ['.', 't', 'x']) := by
  induction s with
  | nil => decide
  | cons c cs ih =>
    intro K
    rw [List.cons_append] at K
    rcases List.infix_cons_iff.mp K with K1 | K2
    · match cs, K1 with
      | [], ⟨u, hu⟩ =>
        simp only [txtP, List.append_eq, List.cons_append, List.nil_append, List.cons.injEq] at hu
        exact absurd hu.2.1 (by decide)
      | [a], ⟨u, hu⟩ =>
        simp only [txtP, List.append_eq, List.cons_append, List.nil_append, List.cons.injEq] at hu
        exact absurd hu.2.2.1 (by decide)
      | [a, b], ⟨u, hu⟩ =>
        simp only [txtP, List.append_eq, List.cons_append, List.nil_append, List.cons.injEq] at hu
        exact absurd hu.2.2.2.1 (by decide)
      | a :: b :: d :: rest, K1 =>
        have hy : [c, a, b, d] <+: c :: ((a :: b :: d :: rest) ++ ['.', 't', 'x']) :=
          ⟨rest ++ ['.', 't', 'x'], by simp⟩
        obtain ⟨u, hu⟩ :=
          List.prefix_of_prefix_length_le K1 hy (by simp [txtP])
        simp only [txtP, List.append_eq, List.cons_append, List.nil_append, List.cons.injEq] at hu
        obtain ⟨h1, h2, h3, h4, -⟩ := hu
        subst h1; subst h2; subst h3; subst h4
        exact h ⟨[], rest, rfl⟩
    · exact ih (fun hs => h (List.infix_cons hs)) K2

/-- Removing the first occurrence of ".txt" from s ++ ".txt" gives back s,
provided no occurrence of ".txt" starts before the final one. -/
theorem replaceFirst_txt_append {s : List Char} (h : ¬ txtP <:+: (s ++ ['.', 't', 'x'])) :
    replaceFirstChars txtP [] (s ++ txtP) = s := by
  induction s with
  | nil => decide
  | cons c cs ih =>
    have hnp : ¬ txtP <+: (c :: (cs ++ txtP)) := by
      intro K1
      match cs, K1 with
      | [], ⟨u, hu⟩ =>
        simp only [txtP, List.append_eq, List.cons_append, List.nil_append, List.cons.injEq] at hu
        exact absurd hu.2.1 (by decide)
      | [a], ⟨u, hu⟩ =>
        simp only [txtP, List.append_eq, List.cons_append, List.nil_append, List.cons.injEq] at hu
        exact absurd hu.2.2.1 (by decide)
      | [a, b], ⟨u, hu⟩ =>
        simp only [txtP, List.append_eq, List.cons_append, List.nil_append, List.cons.injEq] at hu
        exact absurd hu.2.2.2.1 (by decide)
      | a :: b :: d :: rest, K1 =>
        have hy : [c, a, b, d] <+: c :: ((a :: b :: d :: rest) ++ txtP) :=
          ⟨rest ++ txtP, by simp⟩
        obtain ⟨u, hu⟩ :=
          List.prefix_of_prefix_length_le K1 hy (by simp [txtP])
        simp only [txtP, List.append_eq, List.cons_append, List.nil_append, List.cons.injEq] at hu
        obtain ⟨h1, h2, h3, h4, -⟩ := hu
        subst h1; subst h2; subst h3; subst h4
        exact h ⟨[], rest ++ ['.', 't', 'x'], by simp [txtP]⟩
    show replaceFirstChars txtP [] (c :: (cs ++ txtP)) = c :: cs
    rw [replaceFirstChars, if_neg hnp]
    have hcs : ¬ txtP <:+: (cs ++ ['.', 't', 'x']) := by
      intro hi
      exact h (List.infix_cons hi)
    rw [ih hcs]

/-- Every note file name ends with ".txt", so the listing filter keeps it. -/
theorem jsEndsWith_noteFile (n : String) : jsEndsWith (noteFile n) ".txt" = true := by
  show List.isSuffixOf ".txt".data (n ++ ".txt").data = true
  rw [String.data_append]
  simp [ List.isSuffixOf_iff_suffix]

/-- Replacing the first occurrence of ".txt" in the file name of a note
recovers the note name, provided the name itself does not contain ".txt". -/
theorem jsReplaceFirst_noteFile {n : String} (h : ¬ txtP <:+: n.data) :
    jsReplaceFirst (noteFile n) ".txt" "" = n := by
  apply String.ext
  show replaceFirstChars ".txt".data "".data (n ++ ".txt").data = n.data
  rw [String.data_append]
  exact replaceFirst_txt_append (not_txt_infix_append h)

/-! ### Claim C1 -/

/-- C1 counterexample: the claim fails as stated. The note created under
the name ".txtb" is stored in the file ".txtb.txt", but the listing
removes the FIRST occurrence of ".txt" from the file name, so the listing
shows the name "b.txt" and contains no entry named ".txtb". -/
theorem listNotes_txtb_counterexample :
    (postWrite [] (some ".txtb") (some "z")).2.status = 201 ∧
    listNotes (postWrite [] (some ".txtb") (some "z")).1 = [NoteEntry.mk "b.txt" "z"] ∧
    ∀ e ∈ listNotes (postWrite [] (some ".txtb") (some "z")).1, e.name ≠ ".txtb" := by
  decide

/-- C1 (amended): for every stored note whose name does not contain the
substring ".txt", the list() result contains the entry with exactly that
name and the stored content; the listing recovers the name by removing
the first occurrence of ".txt" from the file name, which coincides with
stripping the suffix only when no earlier occurrence exists. -/
theorem listNotes_recovers_stored_name {fs : FS} {n t : String}
    (hinf : ¬ txtP <:+: n.data)
    (hread : readFileSync fs (noteFile n) = some t) :
    NoteEntry.mk n t ∈ listNotes fs := by
  have hmem : noteFile n ∈ readdirSync fs := mem_readdirSync_of_readFileSync hread
  have hfil : noteFile n ∈ (readdirSync fs).filter (fun f => jsEndsWith f ".txt") :=
    List.mem_filter_of_mem hmem (jsEndsWith_noteFile n)
  simp only [listNotes]
  refine List.mem_map.mpr ⟨noteFile n, hfil, ?_⟩
  rw [jsReplaceFirst_noteFile hinf, hread]
  rfl

/-- C1 witness: the amended theorem applied to a concrete store. -/
theorem listNotes_recovers_stored_name_witness :
    NoteEntry.mk "a" "hello" ∈ listNotes [("a.txt", "hello")] :=
  listNotes_recovers_stored_name (by decide) (by decide)

/-! ### Claims C2 to C6 -/

/-- C2: a successful create of a non-empty name with non-empty text,
followed by get of the same name, returns status 200 with exactly the
created text. -/
theorem create_then_get_roundtrip {fs : FS} {n t : String}
    (hn : n ≠ "") (ht : t ≠ "") (hfree : existsSync fs (noteFile n) = false) :
    (postWrite fs (some n) (some t)).2 = Response.mk 201 "Note created" ∧
    getNote (postWrite fs (some n) (some t)).1 n = Response.mk 200 t := by
  have hfn : falsy (some n) = false := by simp [falsy, hn]
  have hft : falsy (some t) = false := by simp [falsy, ht]
  have hr := readFileSync_writeFileSync_self fs (noteFile n) t
  have he : existsSync (writeFileSync fs (noteFile n) t) (noteFile n) = true := by
    rw [existsSync_eq_isSome, hr]; rfl
  simp only [postWrite, hfn, hft, Bool.or_self, Bool.false_or, Bool.or_false,
    if_false, hfree, Option.getD_some, Bool.false_eq_true]
  refine ⟨by simp, ?_⟩
  simp [getNote, he, hr]

/-- C2 witness: the round trip at a concrete input. -/
theorem create_then_get_roundtrip_witness :
    (postWrite [] (some "a") (some "b")).2 = Response.mk 201 "Note created" ∧
    getNote (postWrite [] (some "a") (some "b")).1 "a" = Response.mk 200 "b" :=
  create_then_get_roundtrip (by decide) (by decide) (by decide)

/-- C3 counterexample: with an empty second text the second create is
rejected by the field validation, which runs before the existence check,
so it reports the missing-field error rather than AlreadyExists. -/
theorem create_create_empty_text_counterexample :
    (postWrite [] (some "a") (some "x")).2.status = 201 ∧
    (postWrite (postWrite [] (some "a") (some "x")).1 (some "a") (some "")).2 =
      Response.mk 400 "Missing note_name or note" ∧
    (postWrite (postWrite [] (some "a") (some "x")).1 (some "a") (some "")).2 ≠
      Response.mk 400 "Note already exists" := by
  decide

/-- C3 (amended): after a successful create of name with text t1, a second
create of the same name with a NON-EMPTY text t2 reports AlreadyExists
with status 400, changes nothing, and the stored content remains t1. With
an empty or absent t2 the second call instead reports the missing-field
error, still with status 400 and still changing nothing. -/
theorem create_create_already_exists {fs : FS} {n t1 t2 : String}
    (h1 : (postWrite fs (some n) (some t1)).2.status = 201) (h2 : t2 ≠ "") :
    (postWrite (postWrite fs (some n) (some t1)).1 (some n) (some t2)).2 =
      Response.mk 400 "Note already exists" ∧
    (postWrite (postWrite fs (some n) (some t1)).1 (some n) (some t2)).1 =
      (postWrite fs (some n) (some t1)).1 ∧
    readFileSync (postWrite (postWrite fs (some n) (some t1)).1 (some n) (some t2)).1
      (noteFile n) = some t1 := by
  by_cases hb : (falsy (some n) || falsy (some t1)) = true
  · simp [postWrite, hb] at h1
  · have hb0 : (falsy (some n) || falsy (some t1)) = false :=
      Bool.not_eq_true _ ▸ Bool.of_not_eq_true hb
    have hfn : falsy (some n) = false := (Bool.or_eq_false_iff.mp hb0).1
    by_cases hex : existsSync fs (noteFile n) = true
    · simp [postWrite, hb0, hex] at h1
    · have hex0 : existsSync fs (noteFile n) = false :=
        Bool.not_eq_true _ ▸ Bool.of_not_eq_true hex
      have hs1 : (postWrite fs (some n) (some t1)).1 =
          writeFileSync fs (noteFile n) t1 := by
        simp [postWrite, hb0, hex0]
      have hr := readFileSync_writeFileSync_self fs (noteFile n) t1
      have he : existsSync (writeFileSync fs (noteFile n) t1) (noteFile n) = true := by
        rw [existsSync_eq_isSome, hr]; rfl
      have hft : falsy (some t2) = false := by simp [falsy, h2]
      rw [hs1]
      simp [postWrite, hfn, hft, he, hr]

/-- C3 witness: the amended theorem applied to concrete inputs. -/
theorem create_create_already_exists_witness :
    (postWrite (postWrite [] (some "a") (some "x")).1 (some "a") (some "y")).2 =
      Response.mk 400 "Note already exists" ∧
    (postWrite (postWrite [] (some "a") (some "x")).1 (some "a") (some "y")).1 =
      (postWrite [] (some "a") (some "x")).1 ∧
    readFileSync (postWrite (postWrite [] (some "a") (some "x")).1 (some "a") (some "y")).1
      (noteFile "a") = some "x" :=
  create_create_already_exists (by decide) (by decide)

/-- C4: update of a name with no stored note reports 404 NotFound, leaves
the store exactly as it was, whatever the request body, and a subsequent
get still reports 404. -/
theorem update_nonexistent_not_found {fs : FS} {n : String} (b : Option String)
    (h : existsSync fs (noteFile n) = false) :
    putNote fs n b = (fs, Response.mk 404 "Note not found") ∧
    (getNote fs n).status = 404 := by
  exact ⟨by simp [putNote, h], by simp [getNote, h]⟩

/-- C4 witness: the theorem applied to the empty store. -/
theorem update_nonexistent_not_found_witness :
    putNote [] "a" (some "x") = ([], Response.mk 404 "Note not found") ∧
    (getNote [] "a").status = 404 :=
  update_nonexistent_not_found (some "x") (by decide)

/-- C5: get reports 404 exactly when the note is not stored, delete
reports 404 exactly when the note is not stored, and a successful delete
reports 200 after which get reports 404. -/
theorem get_delete_not_found_iff (fs : FS) (n : String) :
    ((getNote fs n).status = 404 ↔ existsSync fs (noteFile n) = false) ∧
    ((deleteNote fs n).2.status = 404 ↔ existsSync fs (noteFile n) = false) ∧
    (existsSync fs (noteFile n) = true →
      (deleteNote fs n).2.status = 200 ∧
      (getNote (deleteNote fs n).1 n).status = 404) := by
  have hr := readFileSync_unlinkSync_self fs (noteFile n)
  have hd : existsSync (unlinkSync fs (noteFile n)) (noteFile n) = false := by
    rw [existsSync_eq_isSome, hr]; rfl
  refine ⟨?_, ?_, fun h => ⟨by simp [deleteNote, h], ?_⟩⟩
  · by_cases h : existsSync fs (noteFile n) = true <;> simp [getNote, h]
  · by_cases h : existsSync fs (noteFile n) = true <;> simp [deleteNote, h]
  · simp [deleteNote, h, getNote, hd]

/-- C5 witness: the theorem applied to a concrete store holding the note. -/
theorem get_delete_not_found_iff_witness :
    (deleteNote [("a.txt", "x")] "a").2.status = 200 ∧
    (getNote (deleteNote [("a.txt", "x")] "a").1 "a").status = 404 :=
  (get_delete_not_found_iff [("a.txt", "x")] "a").2.2 (by decide)

/-- C6: create with an absent or empty name, or an absent or empty text,
reports 400 with the missing-field error and returns the store unchanged. -/
theorem create_missing_field_invalid {fs : FS} {note_name nt : Option String}
    (h : note_name = none ∨ note_name = some "" ∨ nt = none ∨ nt = some "") :
    postWrite fs note_name nt = (fs, Response.mk 400 "Missing note_name or note") := by
  have hf : (falsy note_name || falsy nt) = true := by
    rcases h with h | h | h | h <;> subst h <;> simp [falsy]
  simp [postWrite, hf]

/-- C6 witness: create with an empty name on a non-empty store. -/
theorem create_missing_field_invalid_witness :
    postWrite [("a.txt", "x")] (some "") (some "y") =
      ([("a.txt", "x")], Response.mk 400 "Missing note_name or note") :=
  create_missing_field_invalid (Or.inr (Or.inl rfl))

/-! ### Claims C7 to C10 -/

/-- C7: starting from the empty store, after creating a with hello and b
with world, the listing holds exactly those two entries, as a set. -/
theorem list_after_two_creates :
    NoteEntry.mk "a" "hello" ∈
      listNotes (postWrite (postWrite [] (some "a") (some "hello")).1
        (some "b") (some "world")).1 ∧
    NoteEntry.mk "b" "world" ∈
      listNotes (postWrite (postWrite [] (some "a") (some "hello")).1
        (some "b") (some "world")).1 ∧
    ∀ e ∈ listNotes (postWrite (postWrite [] (some "a") (some "hello")).1
        (some "b") (some "world")).1,
      e = NoteEntry.mk "a" "hello" ∨ e = NoteEntry.mk "b" "world" := by
  decide

/-- C8: the full scenario on any store with no note named x: create x with
abc gives 201, get returns abc, update to xyz gives 200, get returns xyz,
delete gives 200, and a final get reports 404. -/
theorem crud_scenario (fs : FS) (h : existsSync fs (noteFile "x") = false) :
    (postWrite fs (some "x") (some "abc")).2 = Response.mk 201 "Note created" ∧
    getNote (postWrite fs (some "x") (some "abc")).1 "x" = Response.mk 200 "abc" ∧
    (putNote (postWrite fs (some "x") (some "abc")).1 "x" (some "xyz")).2.status = 200 ∧
    getNote (putNote (postWrite fs (some "x") (some "abc")).1 "x" (some "xyz")).1 "x" =
      Response.mk 200 "xyz" ∧
    (deleteNote (putNote (postWrite fs (some "x") (some "abc")).1 "x"
      (some "xyz")).1 "x").2.status = 200 ∧
    (getNote (deleteNote (putNote (postWrite fs (some "x") (some "abc")).1 "x"
      (some "xyz")).1 "x").1 "x").status = 404 := by
  have hf0 : (falsy (some "x") || falsy (some "abc")) = false := by decide
  have hs1 : (postWrite fs (some "x") (some "abc")).1 =
      writeFileSync fs (noteFile "x") "abc" := by
    simp [postWrite, hf0, h]
  have hrA := readFileSync_writeFileSync_self fs (noteFile "x") "abc"
  have heA : existsSync (writeFileSync fs (noteFile "x") "abc") (noteFile "x") = true := by
    rw [existsSync_eq_isSome, hrA]; rfl
  have hs2 : (putNote (writeFileSync fs (noteFile "x") "abc") "x" (some "xyz")).1 =
      writeFileSync (writeFileSync fs (noteFile "x") "abc") (noteFile "x") "xyz" := by
    simp [putNote, heA]
  have hrB := readFileSync_writeFileSync_self
    (writeFileSync fs (noteFile "x") "abc") (noteFile "x") "xyz"
  have heB : existsSync (writeFileSync (writeFileSync fs (noteFile "x") "abc")
      (noteFile "x") "xyz") (noteFile "x") = true := by
    rw [existsSync_eq_isSome, hrB]; rfl
  have hs3 : (deleteNote (writeFileSync (writeFileSync fs (noteFile "x") "abc")
      (noteFile "x") "xyz") "x").1 =
      unlinkSync (writeFileSync (writeFileSync fs (noteFile "x") "abc")
        (noteFile "x") "xyz") (noteFile "x") := by
    simp [deleteNote, heB]
  have hrC := readFileSync_unlinkSync_self
    (writeFileSync (writeFileSync fs (noteFile "x") "abc") (noteFile "x") "xyz")
    (noteFile "x")
  have heC : existsSync (unlinkSync (writeFileSync (writeFileSync fs
      (noteFile "x") "abc") (noteFile "x") "xyz") (noteFile "x")) (noteFile "x") = false := by
    rw [existsSync_eq_isSome, hrC]; rfl
  refine ⟨by simp [postWrite, hf0, h], ?_, ?_, ?_, ?_, ?_⟩
  · rw [hs1]; simp [getNote, heA, hrA]
  · rw [hs1]; simp [putNote, heA]
  · rw [hs1, hs2]; simp [getNote, heB, hrB]
  · rw [hs1, hs2]; simp [deleteNote, heB]
  · rw [hs1, hs2, hs3]; simp [getNote, heC]

/-- C8 witness: the scenario run from the empty store. -/
theorem crud_scenario_witness :
    (getNote (deleteNote (putNote (postWrite [] (some "x") (some "abc")).1 "x"
      (some "xyz")).1 "x").1 "x").status = 404 :=
  (crud_scenario [] (by decide)).2.2.2.2.2

/-- C9: create, update and delete on a target name leave the existence and
the content of every other note unchanged, in every outcome; get and list
are pure functions of the store and modify nothing by construction. -/
theorem operations_preserve_other_notes (fs : FS) (n m t : String)
    (b : Option String) (h : m ≠ n) :
    readFileSync (postWrite fs (some n) (some t)).1 (noteFile m) =
      readFileSync fs (noteFile m) ∧
    existsSync (postWrite fs (some n) (some t)).1 (noteFile m) =
      existsSync fs (noteFile m) ∧
    readFileSync (putNote fs n b).1 (noteFile m) = readFileSync fs (noteFile m) ∧
    existsSync (putNote fs n b).1 (noteFile m) = existsSync fs (noteFile m) ∧
    readFileSync (deleteNote fs n).1 (noteFile m) = readFileSync fs (noteFile m) ∧
    existsSync (deleteNote fs n).1 (noteFile m) = existsSync fs (noteFile m) := by
  have hne : noteFile m ≠ noteFile n := fun hh => h (noteFile_injEq hh)
  have hw : ∀ c, readFileSync (writeFileSync fs (noteFile n) c) (noteFile m) =
      readFileSync fs (noteFile m) :=
    fun c => readFileSync_writeFileSync_ne fs c hne
  have hu : readFileSync (unlinkSync fs (noteFile n)) (noteFile m) =
      readFileSync fs (noteFile m) :=
    readFileSync_unlinkSync_ne fs hne
  have h1 : readFileSync (postWrite fs (some n) (some t)).1 (noteFile m) =
      readFileSync fs (noteFile m) := by
    simp only [postWrite]
    split
    · rfl
    · split
      · rfl
      · exact hw _
  have h2 : readFileSync (putNote fs n b).1 (noteFile m) =
      readFileSync fs (noteFile m) := by
    simp only [putNote]
    split
    · rfl
    · match b with
      | none => rfl
      | some c => exact hw c
  have h3 : readFileSync (deleteNote fs n).1 (noteFile m) =
      readFileSync fs (noteFile m) := by
    simp only [deleteNote]
    split
    · rfl
    · exact hu
  refine ⟨h1, ?_, h2, ?_, h3, ?_⟩ <;>
    rw [existsSync_eq_isSome, existsSync_eq_isSome]
  · rw [h1]
  · rw [h2]
  · rw [h3]

/-- C9 witness: creating a leaves the stored note b untouched. -/
theorem operations_preserve_other_notes_witness :
    readFileSync (postWrite [("b.txt", "v")] (some "a") (some "w")).1 (noteFile "b") =
      readFileSync [("b.txt", "v")] (noteFile "b") :=
  (operations_preserve_other_notes [("b.txt", "v")] "a" "b" "w" none (by decide)).1

/-- C10: the PUT handler checks existence before validating the body: on a
missing note it reports 404 for every body, including a non-string one,
and a 400 response implies the note exists. -/
theorem put_existence_check_precedes_body_validation (fs : FS) (n : String)
    (b : Option String) :
    (existsSync fs (noteFile n) = false →
      (putNote fs n b).2 = Response.mk 404 "Note not found") ∧
    ((putNote fs n b).2.status = 400 → existsSync fs (noteFile n) = true) := by
  constructor
  · intro h
    simp [putNote, h]
  · intro h4
    by_cases he : existsSync fs (noteFile n) = true
    · exact he
    · have he0 : existsSync fs (noteFile n) = false :=
        Bool.not_eq_true _ ▸ Bool.of_not_eq_true he
      simp [putNote, he0] at h4

/-- C10 witness: a non-string body on a missing note still gets 404. -/
theorem put_existence_check_precedes_body_validation_witness :
    (putNote [] "a" none).2 = Response.mk 404 "Note not found" :=
  (put_existence_check_precedes_body_validation [] "a" none).1 (by decide)
